import Mathlib

/-!
Shallow embedding of the audit-log-api repository (Go) for specification
checking.  Times are modelled as natural numbers (seconds); the Go zero
`time.Time` is modelled as `Option.none` where the code tests `IsZero`,
and as `0` where a required timestamp is bound.  Machine integers that
the code only ever uses as small counters are modelled as `Int`/`Nat`.
-/

namespace AuditLogAPI

/-- `domain.AuditLog` (internal/domain/audit_log.go).  The gorm payload
blobs (`before_state`, `after_state`, `metadata`) and the audit
timestamps are irrelevant to every claim and are omitted; all other
fields are carried. -/
structure AuditLog where
  id : String := ""
  tenantID : String := ""
  userID : String := ""
  sessionID : String := ""
  ipAddress : String := ""
  userAgent : String := ""
  action : String := ""
  resourceType : String := ""
  resourceID : String := ""
  message : String := ""
  severity : String := ""
  timestamp : Nat := 0
deriving Repr, DecidableEq

/-- `domain.AuditLogFilter` (internal/domain/audit_log.go).  Go zero
values denote an absent predicate: empty string for the string fields,
`IsZero` (here `none`) for the two times, `0` for the paging fields. -/
structure AuditLogFilter where
  tenantID : String := ""
  userID : String := ""
  sessionID : String := ""
  ipAddress : String := ""
  userAgent : String := ""
  action : String := ""
  resourceType : String := ""
  resourceID : String := ""
  message : String := ""
  severity : String := ""
  startTime : Option Nat := none
  endTime : Option Nat := none
  page : Int := 0
  pageSize : Int := 0
  limit : Int := 0
  offset : Int := 0
deriving Repr, DecidableEq

/-- The WHERE chain of `AuditLogRepository.List`: mandatory
`tenant_id = ?`, then one optional equality per non-zero filter field,
`timestamp >= StartTime` and `timestamp <= EndTime`. -/
def matchesListFilter (f : AuditLogFilter) (l : AuditLog) : Bool :=
  l.tenantID == f.tenantID
    && (f.userID == "" || l.userID == f.userID)
    && (f.action == "" || l.action == f.action)
    && (f.resourceType == "" || l.resourceType == f.resourceType)
    && (f.resourceID == "" || l.resourceID == f.resourceID)
    && (f.severity == "" || l.severity == f.severity)
    && (match f.startTime with
        | none => true
        | some s => s ≤ l.timestamp)
    && (match f.endTime with
        | none => true
        | some e => l.timestamp ≤ e)

/-- Insertion step for `ORDER BY timestamp DESC`. -/
def insertDesc (l : AuditLog) : List AuditLog → List AuditLog
  | [] => [l]
  | x :: xs => if x.timestamp ≤ l.timestamp then l :: x :: xs else x :: insertDesc l xs

/-- `ORDER BY timestamp DESC` as an insertion sort. -/
def sortDesc : List AuditLog → List AuditLog
  | [] => []
  | x :: xs => insertDesc x (sortDesc xs)

/-- SQL `OFFSET`, applied only when `Offset > 0` as in the gorm builder. -/
def applyOffset (off : Int) (ls : List AuditLog) : List AuditLog :=
  if off > 0 then ls.drop off.toNat else ls

/-- SQL `LIMIT`, applied only when `Limit > 0` as in the gorm builder. -/
def applyLimit (lim : Int) (ls : List AuditLog) : List AuditLog :=
  if lim > 0 then ls.take lim.toNat else ls

/-- `AuditLogRepository.List` (unnamed/part_013): requires a tenant in
the filter, filters the table, orders by timestamp descending, then
applies offset and limit. -/
def repoList (db : List AuditLog) (f : AuditLogFilter) : Except String (List AuditLog) :=
  if f.tenantID == "" then .error "tenant_id is required"
  else .ok (applyLimit f.limit (applyOffset f.offset (sortDesc (db.filter (matchesListFilter f)))))

/-- gorm-level errors surfaced by the repositories. -/
inductive GormErr where
  | recordNotFound
  | noTenantInContext
deriving Repr, DecidableEq

/-- `AuditLogRepository.GetByID` (unnamed/part_013): tenant scope from
the caller context (`getTenantScope`), then `First(&log, "id = ?")`.
gorm `First` yields `ErrRecordNotFound` when nothing matches. -/
def repoGetByID (ctxTenant : Option String) (db : List AuditLog) (id : String) :
    Except GormErr AuditLog :=
  match ctxTenant with
  | none => .error .noTenantInContext
  | some t =>
    match db.find? (fun l => l.tenantID == t && l.id == id) with
    | some l => .ok l
    | none => .error .recordNotFound

/-- `AuditLogRepository.DeleteBeforeDate` (unnamed/part_013): the rows
removed by `tenant_id = ? AND timestamp < ?`. -/
def deleteBeforeDateSel (db : List AuditLog) (t : String) (d : Nat) : List AuditLog :=
  db.filter (fun l => l.tenantID == t && l.timestamp < d)

/-- `AuditLogRepository.DeleteBeforeDate`: remaining table and the
`RowsAffected` count. -/
def deleteBeforeDate (db : List AuditLog) (t : String) (d : Nat) :
    List AuditLog × Nat :=
  (db.filter (fun l => !(l.tenantID == t && l.timestamp < d)),
   (deleteBeforeDateSel db t d).length)

/-- The id/tenant rewriting loop of `AuditLogRepository.BulkCreate`
(unnamed/part_013): the `i`-th generated UUID is supplied by `uuidGen`,
and every row's `TenantID` is overwritten with the tenant taken from the
caller context. -/
def bulkAssign (t : String) (uuidGen : Nat → String) (logs : List AuditLog) :
    List AuditLog :=
  logs.enum.map (fun p =>
    { p.2 with
      id := if p.2.id == "" then uuidGen p.1 else p.2.id,
      tenantID := t })

/-- `AuditLogRepository.BulkCreate` (unnamed/part_013): fails when the
context carries no tenant (`utils.GetTenantIDFromContext`); otherwise
returns the rows handed to `CreateInBatches`.  The chunking (size 100)
does not change the inserted set and is not modelled. -/
def repoBulkCreate (ctxTenant : Option String) (uuidGen : Nat → String)
    (logs : List AuditLog) : Except GormErr (List AuditLog) :=
  match ctxTenant with
  | none => .error .noTenantInContext
  | some t => .ok (bulkAssign t uuidGen logs)

/-- Day bucket used for the per-(tenant, day) search-index naming
(`GetIndexName`). -/
def dayBucket (ts : Nat) : Nat := ts / 86400 * 86400

/-- One document of the search index together with the tenant and day
components of the index it was written to
(`audit_logs_<tenant>_<YYYY_MM_DD>`). -/
structure SIEntry where
  indexTenant : String
  indexDay : Nat
  log : AuditLog
deriving Repr, DecidableEq

/-- `opensearch.repository.Index` (unnamed/part_013): the document is
written to the index derived from the log's own `TenantID` and
timestamp. -/
def siIndexDoc (si : List SIEntry) (l : AuditLog) : List SIEntry :=
  ⟨l.tenantID, dayBucket l.timestamp, l⟩ :: si

/-- The conjunction built by `buildSearchQuery` (unnamed/part_013):
term queries on the keyword fields, match queries on `user_agent` and
`message` (full-text matching is modelled as string equality; the
distinction never affects a claim), and the `gte`/`lte` range on
`timestamp`. -/
def matchesSearchQuery (f : AuditLogFilter) (l : AuditLog) : Bool :=
  (f.userID == "" || l.userID == f.userID)
    && (f.action == "" || l.action == f.action)
    && (f.resourceType == "" || l.resourceType == f.resourceType)
    && (f.severity == "" || l.severity == f.severity)
    && (f.sessionID == "" || l.sessionID == f.sessionID)
    && (f.userAgent == "" || l.userAgent == f.userAgent)
    && (f.message == "" || l.message == f.message)
    && (f.ipAddress == "" || l.ipAddress == f.ipAddress)
    && (match f.startTime with
        | none => true
        | some s => s ≤ l.timestamp)
    && (match f.endTime with
        | none => true
        | some e => l.timestamp ≤ e)

/-- The `from`/`size` pagination of `buildSearchQuery`, applied only
when both `Page` and `PageSize` are positive. -/
def siPaginate (page pageSize : Int) (ls : List AuditLog) : List AuditLog :=
  if page > 0 && pageSize > 0 then
    (ls.drop ((page - 1) * pageSize).toNat).take pageSize.toNat
  else ls

/-- `opensearch.repository.Search` (unnamed/part_013): the request is
issued against the caller tenant's index pattern
(`GetIndexPattern tenantID`), so only documents in that tenant's
indices are visible; hits are filtered by the query, sorted by
timestamp descending and paginated. -/
def siSearch (si : List SIEntry) (ctxTenant : String) (f : AuditLogFilter) :
    List AuditLog :=
  siPaginate f.page f.pageSize
    (sortDesc
      ((si.filter (fun ent =>
        ent.indexTenant == ctxTenant && matchesSearchQuery f ent.log)).map (·.log)))

/-- `AuditLogService.hasSearchCriteria` (pkg/logger/logger.go): true
exactly when one of the eight content predicates is present. -/
def hasSearchCriteria (f : AuditLogFilter) : Bool :=
  f.userID != "" || f.action != "" || f.resourceType != "" || f.severity != ""
    || f.ipAddress != "" || f.userAgent != "" || f.message != ""
    || f.sessionID != ""

/-- The pagination normalisation at the top of `AuditLogService.List`:
`Page ≥ 1`, `PageSize ≥ 1` (default 10), `Limit = PageSize`,
`Offset = (Page-1)*PageSize`. -/
def normalizeFilter (f : AuditLogFilter) : AuditLogFilter :=
  let page := if f.page < 1 then 1 else f.page
  let pageSize := if f.pageSize < 1 then 10 else f.pageSize
  { f with
    page := page, pageSize := pageSize,
    limit := pageSize, offset := (page - 1) * pageSize }

/-- Which backend `AuditLogService.List` consulted. -/
inductive ListBackend where
  | searchIndex
  | primaryStore
deriving Repr, DecidableEq

/-- `AuditLogService.List` (pkg/logger/logger.go): normalise
pagination, then route to the search index when `hasSearchCriteria`
holds and to the primary store otherwise. -/
def serviceList (si : List SIEntry) (db : List AuditLog) (ctxTenant : String)
    (f : AuditLogFilter) : ListBackend × Except String (List AuditLog) :=
  let f := normalizeFilter f
  if hasSearchCriteria f then (.searchIndex, .ok (siSearch si ctxTenant f))
  else (.primaryStore, repoList db f)

/-- `getFilterFromQuery` (internal/api/audit_log_handler.go): the
filter's tenant is always the one bound from the caller's token
context; `start_time`/`end_time` are required and must be ordered.
Query-string parsing itself is abstracted into the incoming filter
value, whose `tenantID` field is ignored and overwritten. -/
def getFilterFromQuery (ctxTenant : String) (q : AuditLogFilter) :
    Except String AuditLogFilter :=
  if ctxTenant == "" then .error "tenant_id is required"
  else
    match q.startTime, q.endTime with
    | none, _ => .error "start_time is required"
    | _, none => .error "end_time is required"
    | some s, some e =>
      if e < s then .error "start_time must be before end_time"
      else .ok { q with tenantID := ctxTenant }

/-- `time_bucket('1 hour', timestamp)` of the continuous aggregate
(scripts/migrations/001_init.sql). -/
def hourBucket (ts : Nat) : Nat := ts / 3600 * 3600

/-- Grouping key of the `audit_logs_hourly_stats` materialized view:
`(bucket, tenant_id, action, severity, resource_type)`. -/
structure StatKey where
  bucket : Nat
  tenantID : String
  action : String
  severity : String
  resourceType : String
deriving Repr, DecidableEq

/-- The grouping key of an event in the hourly rollup. -/
def statKey (l : AuditLog) : StatKey :=
  ⟨hourBucket l.timestamp, l.tenantID, l.action, l.severity, l.resourceType⟩

/-- The rows of `audit_logs_hourly_stats`: one row per distinct key
with `count = COUNT(*)` of the events in that group
(scripts/migrations/001_init.sql). -/
def hourlyRows (db : List AuditLog) : List (StatKey × Nat) :=
  ((db.map statKey).dedup).map
    (fun k => (k, (db.filter (fun l => statKey l == k)).length))

/-- The rollup rows selected by the ≤ 24 h branch of
`AuditLogRepository.GetStats`: `tenant_id = ? AND bucket >= ? AND
bucket < ?`. -/
def hourlyRowsInRange (db : List AuditLog) (t : String) (s e : Nat) :
    List (StatKey × Nat) :=
  (hourlyRows db).filter
    (fun r => r.1.tenantID == t && decide (s ≤ r.1.bucket) && decide (r.1.bucket < e))

/-- The base-table events selected by the > 24 h branch of
`AuditLogRepository.GetStats`: `tenant_id = ? AND timestamp >= ? AND
timestamp < ?`. -/
def baseStatsEvents (db : List AuditLog) (t : String) (s e : Nat) :
    List AuditLog :=
  db.filter
    (fun l => l.tenantID == t && decide (s ≤ l.timestamp) && decide (l.timestamp < e))

/-- Occurrence counts of a list of keys, as the deterministic
association list a SQL `GROUP BY`/`COUNT(*)` produces. -/
def countBy (keys : List String) : List (String × Nat) :=
  keys.dedup.map (fun k => (k, (keys.filter (fun x => x == k)).length))

/-- Per-key sums of rollup counts, as `SELECT key, SUM(count) GROUP BY
key` over a projection of the rollup rows. -/
def sumCountsBy (rows : List (StatKey × Nat)) (proj : StatKey → String) :
    List (String × Nat) :=
  ((rows.map (fun r => proj r.1)).dedup).map
    (fun k => (k, ((rows.filter (fun r => proj r.1 == k)).map (·.2)).sum))

/-- `domain.AuditLogStats`. -/
structure AuditLogStats where
  totalLogs : Nat
  actionCounts : List (String × Nat)
  severityCounts : List (String × Nat)
  resourceCounts : List (String × Nat)
deriving Repr, DecidableEq

/-- The ≤ 24 h branch of `AuditLogRepository.GetStats`
(unnamed/part_013): category counts are per-key `SUM(count)` over the
rollup rows in range (resource rows with empty `resource_type`
excluded), while the total is `SELECT COUNT(*) FROM
audit_logs_hourly_stats ...` — the number of rollup rows in range, not
a sum of their counts. -/
def hourlyStrategy (db : List AuditLog) (t : String) (s e : Nat) : AuditLogStats :=
  let rows := hourlyRowsInRange db t s e
  { totalLogs := rows.length,
    actionCounts := sumCountsBy rows (·.action),
    severityCounts := sumCountsBy rows (·.severity),
    resourceCounts :=
      sumCountsBy (rows.filter (fun r => r.1.resourceType != "")) (·.resourceType) }

/-- The > 24 h branch of `AuditLogRepository.GetStats`: grouped counts
and `COUNT(*)` directly over the time-filtered base table. -/
def baseStrategy (db : List AuditLog) (t : String) (s e : Nat) : AuditLogStats :=
  let evs := baseStatsEvents db t s e
  { totalLogs := evs.length,
    actionCounts := countBy (evs.map (·.action)),
    severityCounts := countBy (evs.map (·.severity)),
    resourceCounts :=
      countBy ((evs.filter (fun l => l.resourceType != "")).map (·.resourceType)) }

/-- `AuditLogRepository.GetStats` (unnamed/part_013): both times are
required; the tenant comes from the filter (the handler always binds
the token tenant there) or the context; the strategy is chosen by
`EndTime - StartTime ≤ 24h` (the subtraction is a signed Go
`time.Duration`). -/
def repoGetStats (db : List AuditLog) (ctxTenant : Option String)
    (f : AuditLogFilter) : Except String AuditLogStats :=
  match f.startTime, f.endTime with
  | none, _ => .error "start time and end time are required"
  | _, none => .error "start time and end time are required"
  | some s, some e =>
    let t? := if f.tenantID == "" then ctxTenant else some f.tenantID
    match t? with
    | none => .error "no claims found in context"
    | some t =>
      if (e : Int) - (s : Int) ≤ 86400 then .ok (hourlyStrategy db t s e)
      else .ok (baseStrategy db t s e)

/-- `dto.CreateAuditLogRequest` (unnamed/part_017).  The flattened JSON
body of a create request; absent JSON fields bind to the Go zero value
(empty string, zero time — modelled as `0`). -/
structure CreateAuditLogRequest where
  tenantID : String := ""
  userID : String := ""
  sessionID : String := ""
  ipAddress : String := ""
  userAgent : String := ""
  action : String := ""
  resourceType : String := ""
  resourceID : String := ""
  severity : String := ""
  message : String := ""
  timestamp : Nat := 0
deriving Repr, DecidableEq

/-- gin `binding:"required"` validation of `CreateAuditLogRequest`:
`tenant_id`, `action`, `resource_type`, `resource_id`, `severity`,
`message` and `timestamp` must be non-zero, else `ShouldBindJSON`
fails. -/
def bindCreateAuditLogRequest (r : CreateAuditLogRequest) : Bool :=
  r.tenantID != "" && r.action != "" && r.resourceType != ""
    && r.resourceID != "" && r.severity != "" && r.message != ""
    && r.timestamp != 0

/-- `CreateAuditLogRequest.ToAuditLog` (internal/api/dto/mapper.go):
a field-for-field copy; `ID` is left empty. -/
def toAuditLog (r : CreateAuditLogRequest) : AuditLog :=
  { id := "", tenantID := r.tenantID, userID := r.userID,
    sessionID := r.sessionID, ipAddress := r.ipAddress,
    userAgent := r.userAgent, action := r.action,
    resourceType := r.resourceType, resourceID := r.resourceID,
    message := r.message, severity := r.severity,
    timestamp := r.timestamp }

/-- The severity column default: gorm tag `default:'INFO'` plus the SQL
`DEFAULT 'INFO'` (001_init.sql) replace an omitted (zero) severity on
insert. -/
def gormStoredLog (l : AuditLog) : AuditLog :=
  { l with severity := if l.severity == "" then "INFO" else l.severity }

/-- A side effect attempted by the ingestion service, with the outcome
of the attempt. -/
inductive CreateEffect where
  | psInsert (l : AuditLog) (ok : Bool)
  | sendIndexMessage (l : AuditLog) (ok : Bool)
  | broadcastLog (tenantID : String) (ok : Bool)
deriving Repr, DecidableEq

/-- `AuditLogService.Create` (pkg/logger/logger.go): the PostgreSQL
insert must succeed for the call to succeed; an SQS enqueue failure and
a publish failure are only printed; the broadcast happens only when a
broadcaster has been injected.  `psOk`, `enqOk` and `pubOk` are the
outcomes of the three external calls. -/
def serviceCreate (psOk enqOk pubOk hasBroadcaster : Bool)
    (r : CreateAuditLogRequest) : List CreateEffect × Except String Unit :=
  let l := toAuditLog r
  if psOk then
    ([.psInsert l true, .sendIndexMessage l enqOk]
      ++ (if hasBroadcaster then [.broadcastLog l.tenantID pubOk] else []),
     .ok ())
  else ([.psInsert l false], .error "failed to store log in PostgreSQL")

/-- `AuditLogHandler.CreateLog` (internal/api/audit_log_handler.go):
binding failure is 400; a service error is 500; success is 201. -/
def handlerCreateLog (psOk enqOk pubOk hasBroadcaster : Bool)
    (r : CreateAuditLogRequest) : Nat × List CreateEffect :=
  if bindCreateAuditLogRequest r then
    match serviceCreate psOk enqOk pubOk hasBroadcaster r with
    | (effs, .ok _) => (201, effs)
    | (effs, .error _) => (500, effs)
  else (400, [])

/-- `AuditLogService.GetByID` (pkg/logger/logger.go): a repository
error propagates; otherwise the non-nil response DTO is returned. -/
def serviceGetByID (ctxTenant : Option String) (db : List AuditLog)
    (id : String) : Except GormErr (Option AuditLog) :=
  match repoGetByID ctxTenant db id with
  | .error e => .error e
  | .ok l => .ok (some l)

/-- `AuditLogHandler.GetLog` (internal/api/audit_log_handler.go): any
service error — including gorm's record-not-found — takes the
`err != nil` branch and responds 500; the 404 branch fires only on a
nil response with a nil error. -/
def handlerGetLog (ctxTenant : Option String) (db : List AuditLog)
    (id : String) : Nat :=
  match serviceGetByID ctxTenant db id with
  | .error _ => 500
  | .ok none => 404
  | .ok (some _) => 200

/-- One WebSocket client session of the hub
(internal/api/websocket_handler.go): its tenant and whether its bounded
send buffer currently has room. -/
structure WSClient where
  clientID : Nat
  tenantID : String
  bufferFree : Bool
deriving Repr, DecidableEq

/-- What `handlePubSubMessage` did with one client. -/
inductive HubAction where
  | deliver (c : WSClient)
  | dropClient (c : WSClient)
deriving Repr, DecidableEq

/-- `WebSocketHandler.handlePubSubMessage`
(internal/api/websocket_handler.go): for each connected client, the
message is sent only when `client.tenantID == log.TenantID`; a matching
client whose buffer is full is dropped instead. -/
def handlePubSubMessage (clients : List WSClient) (logTenant : String) :
    List HubAction :=
  clients.foldr
    (fun c acc =>
      if c.tenantID == logTenant then
        (if c.bufferFree then HubAction.deliver c else HubAction.dropClient c) :: acc
      else acc)
    []

/-- `queue.MessageType` (internal/service/queue/sqs.go). -/
inductive MessageType where
  | index
  | bulkIndex
  | archive
  | cleanup
deriving Repr, DecidableEq

/-- `queue.Message`, restricted to the lifecycle fields the archive and
cleanup workers read. -/
structure QueueMessage where
  type : MessageType
  tenantID : String
  beforeDate : Nat
deriving Repr, DecidableEq

/-- The archive envelope written to the object store
(`archiveLogsToS3`, internal/worker/archive_worker.go). -/
structure ArchiveObject where
  tenantID : String
  beforeDate : Nat
  logCount : Nat
  logs : List AuditLog
deriving Repr, DecidableEq

/-- The object key `audit-logs/<tenant>/audit_logs_<tenant>_before_<date>.json`;
the date rendering is modelled as the decimal instant. -/
def s3Key (t : String) (d : Nat) : String :=
  "audit-logs/" ++ t ++ "/audit_logs_" ++ t ++ "_before_" ++ toString d ++ ".json"

/-- An external side effect of an archive-worker iteration, in the
order it was performed. -/
inductive WorkerEffect where
  | putObject (key : String) (obj : ArchiveObject)
  | sendCleanup (tenantID : String) (beforeDate : Nat)
  | deleteMessage
deriving Repr, DecidableEq

/-- `ArchiveWorker.processArchiveMessage`
(internal/worker/archive_worker.go): read all events of
`(tenant_id, timestamp ≤ before_date)` via `AuditLogRepository.List`;
when the set is empty, chain cleanup directly; otherwise write the
object first and enqueue cleanup only after the write succeeded.
`s3ok` and `cleanupOk` are the outcomes of the object write and of the
cleanup enqueue; the returned effects are the external calls that
succeeded, and the Bool is whether processing succeeded. -/
def processArchiveMessage (db : List AuditLog) (s3ok cleanupOk : Bool)
    (msg : QueueMessage) : List WorkerEffect × Bool :=
  match repoList db { tenantID := msg.tenantID, endTime := some msg.beforeDate } with
  | .error _ => ([], false)
  | .ok logs =>
    if logs.isEmpty then
      if cleanupOk then ([.sendCleanup msg.tenantID msg.beforeDate], true)
      else ([], false)
    else
      if s3ok then
        let obj : ArchiveObject := ⟨msg.tenantID, msg.beforeDate, logs.length, logs⟩
        if cleanupOk then
          ([.putObject (s3Key msg.tenantID msg.beforeDate) obj,
            .sendCleanup msg.tenantID msg.beforeDate], true)
        else ([.putObject (s3Key msg.tenantID msg.beforeDate) obj], false)
      else ([], false)

/-- The per-message body of `ArchiveWorker.processMessages`: non-ARCHIVE
messages are skipped (left undeleted); an ARCHIVE message is deleted
only when `processArchiveMessage` succeeded. -/
def archiveWorkerStep (db : List AuditLog) (s3ok cleanupOk : Bool)
    (msg : QueueMessage) : List WorkerEffect :=
  if msg.type == MessageType.archive then
    let r := processArchiveMessage db s3ok cleanupOk msg
    r.1 ++ (if r.2 then [WorkerEffect.deleteMessage] else [])
  else []

/-- `CleanupWorker.processCleanupMessage`
(internal/worker/cleanup_worker.go): a tenant-scoped delete of events
with `timestamp < before_date`, returning the new table and the count. -/
def processCleanupMessage (db : List AuditLog) (msg : QueueMessage) :
    List AuditLog × Nat :=
  deleteBeforeDate db msg.tenantID msg.beforeDate

/-- Outcome of reading the current counter from Redis
(unnamed/part_014): the value, `redis.Nil` (key absent, counter reads
as 0), or any other error. -/
inductive RedisGet where
  | found (n : Int)
  | nilKey
  | failure
deriving Repr, DecidableEq

/-- Decision of a rate-limit middleware for one request. -/
inductive RLOutcome where
  | unauthorized401
  | tooMany429
  | proceed
deriving Repr, DecidableEq

/-- `RateLimitMiddleware.GlobalRateLimit` (unnamed/part_014): a Redis
error other than `redis.Nil` fails open; otherwise requests at or above
the limit get 429. -/
def globalRateLimit (limit : Int) (res : RedisGet) : RLOutcome :=
  match res with
  | .failure => .proceed
  | .nilKey => if (0 : Int) ≥ limit then .tooMany429 else .proceed
  | .found n => if n ≥ limit then .tooMany429 else .proceed

/-- `RateLimitMiddleware.TenantRateLimit` (unnamed/part_014): requires
a tenant in the context (else 401), resolves the tenant limit
(`getTenantRateLimit`: the configured default when positive, else
1000), then behaves like the global limiter, failing open on a Redis
error. -/
def tenantRateLimit (ctxTenant : Option String) (defaultRateLimit : Int)
    (res : RedisGet) : RLOutcome :=
  match ctxTenant with
  | none => .unauthorized401
  | some _ =>
    let limit := if defaultRateLimit > 0 then defaultRateLimit else 1000
    match res with
    | .failure => .proceed
    | .nilKey => if (0 : Int) ≥ limit then .tooMany429 else .proceed
    | .found n => if n ≥ limit then .tooMany429 else .proceed

/-- Fixture: an event of tenant `T` in the first hour bucket. -/
def logA : AuditLog :=
  { id := "a", tenantID := "T", action := "CREATE", severity := "INFO",
    resourceType := "user", timestamp := 100 }

/-- Fixture: a second event in the same hour bucket with the same
grouping attributes. -/
def logB : AuditLog := { logA with id := "b", timestamp := 200 }

/-- Fixture: a two-event table whose events share one hourly rollup
group. -/
def dbHour : List AuditLog := [logA, logB]

/-- Fixture: a syntactically complete create request in which only the
severity field is absent. -/
def reqNoSeverity : CreateAuditLogRequest :=
  { tenantID := "T", action := "CREATE", resourceType := "user",
    resourceID := "u1", message := "hi", timestamp := 5 }

/-- Fixture: an old event of tenant `T`. -/
def logOld : AuditLog := { id := "a", tenantID := "T", action := "CREATE", timestamp := 5 }

/-- Fixture: an ARCHIVE task for tenant `T` with cutoff 10. -/
def msgArchive : QueueMessage := ⟨.archive, "T", 10⟩

theorem mem_insertDesc {a l : AuditLog} {ls : List AuditLog} :
    a ∈ insertDesc l ls ↔ a = l ∨ a ∈ ls := by
  induction ls with
  | nil => simp [insertDesc]
  | cons x xs ih =>
    by_cases h : x.timestamp ≤ l.timestamp
    · simp [insertDesc, h]
    · simp [insertDesc, h, ih]
      tauto

theorem mem_sortDesc {a : AuditLog} {ls : List AuditLog} :
    a ∈ sortDesc ls ↔ a ∈ ls := by
  induction ls with
  | nil => simp [sortDesc]
  | cons x xs ih => simp [sortDesc, mem_insertDesc, ih]

theorem mem_of_mem_applyOffset {a : AuditLog} {off : Int} {ls : List AuditLog}
    (h : a ∈ applyOffset off ls) : a ∈ ls := by
  unfold applyOffset at h
  split at h
  · exact List.mem_of_mem_drop h
  · exact h

theorem mem_of_mem_applyLimit {a : AuditLog} {lim : Int} {ls : List AuditLog}
    (h : a ∈ applyLimit lim ls) : a ∈ ls := by
  unfold applyLimit at h
  split at h
  · exact List.mem_of_mem_take h
  · exact h

theorem repoList_ok_matches {db : List AuditLog} {f : AuditLogFilter}
    {res : List AuditLog} (h : repoList db f = .ok res) {a : AuditLog}
    (ha : a ∈ res) : matchesListFilter f a = true := by
  unfold repoList at h
  split at h
  · cases h
  · cases h
    exact List.of_mem_filter
      (mem_sortDesc.mp (mem_of_mem_applyOffset (mem_of_mem_applyLimit ha)))

theorem matchesListFilter_tenant {f : AuditLogFilter} {a : AuditLog}
    (h : matchesListFilter f a = true) : a.tenantID = f.tenantID := by
  unfold matchesListFilter at h
  simp only [Bool.and_eq_true, beq_iff_eq] at h
  exact h.1.1.1.1.1.1.1

/-- Claim C8: when reading the current counter from the rate-limit
substrate fails, both the global (per-IP) and the tenant middleware let
the request proceed and do not return 429. -/
theorem C8_fail_open_rate_limit (limit defaultRateLimit : Int) (t : String) :
    globalRateLimit limit RedisGet.failure = RLOutcome.proceed ∧
    tenantRateLimit (some t) defaultRateLimit RedisGet.failure = RLOutcome.proceed ∧
    globalRateLimit limit RedisGet.failure ≠ RLOutcome.tooMany429 ∧
    tenantRateLimit (some t) defaultRateLimit RedisGet.failure ≠ RLOutcome.tooMany429 := by
  refine ⟨rfl, rfl, ?_, ?_⟩ <;> simp [globalRateLimit, tenantRateLimit]

/-- Claim C6: a list query is routed to the search index exactly when
one of the eight content predicates is present; a filter with only a
time range goes to the primary store. -/
theorem C6_list_routing (si : List SIEntry) (db : List AuditLog)
    (ctxTenant : String) (f : AuditLogFilter) :
    ((serviceList si db ctxTenant f).1 = ListBackend.searchIndex ↔
      (f.userID ≠ "" ∨ f.action ≠ "" ∨ f.resourceType ≠ "" ∨ f.severity ≠ ""
        ∨ f.sessionID ≠ "" ∨ f.ipAddress ≠ "" ∨ f.userAgent ≠ ""
        ∨ f.message ≠ "")) ∧
    ((f.userID = "" ∧ f.action = "" ∧ f.resourceType = "" ∧ f.severity = ""
        ∧ f.sessionID = "" ∧ f.ipAddress = "" ∧ f.userAgent = ""
        ∧ f.message = "") →
      (serviceList si db ctxTenant f).1 = ListBackend.primaryStore) := by
  have hroute : (serviceList si db ctxTenant f).1
      = (if hasSearchCriteria f then ListBackend.searchIndex
         else ListBackend.primaryStore) := by
    show (if hasSearchCriteria (normalizeFilter f) then _ else _ : ListBackend × _).1 = _
    have hn : hasSearchCriteria (normalizeFilter f) = hasSearchCriteria f := rfl
    rw [hn]
    split <;> rfl
  constructor
  · rw [hroute]
    cases hc : hasSearchCriteria f with
    | false =>
      simp only [hasSearchCriteria, Bool.or_eq_false_iff, bne_eq_false_iff_eq] at hc
      simp [hc.1.1.1.1.1.1.1, hc.1.1.1.1.1.1.2, hc.1.1.1.1.1.2, hc.1.1.1.1.2,
        hc.1.1.1.2, hc.1.1.2, hc.1.2, hc.2]
    | true =>
      simp only [hasSearchCriteria, Bool.or_eq_true, bne_iff_ne] at hc
      simp only [if_pos True.intro, ite_true, true_iff]
      tauto
  · intro hall
    rw [hroute]
    have : hasSearchCriteria f = false := by
      simp [hasSearchCriteria, hall.1, hall.2.1, hall.2.2.1, hall.2.2.2.1,
        hall.2.2.2.2.1, hall.2.2.2.2.2.1, hall.2.2.2.2.2.2.1, hall.2.2.2.2.2.2.2]
    rw [this]
    rfl

/-- Claim C6 witness: a filter with only a user_id content predicate is
routed to the search index, and a time-range-only filter to the primary
store. -/
theorem C6_list_routing_witness :
    (serviceList [] [] "T"
      { userID := "u", startTime := some 0, endTime := some 1 }).1
        = ListBackend.searchIndex ∧
    (serviceList [] [] "T"
      { startTime := some 0, endTime := some 1 }).1
        = ListBackend.primaryStore := by
  constructor
  · exact (C6_list_routing [] [] "T"
      { userID := "u", startTime := some 0, endTime := some 1 }).1.mpr
      (Or.inl (by decide))
  · exact (C6_list_routing [] [] "T"
      { startTime := some 0, endTime := some 1 }).2
      (by refine ⟨rfl, rfl, rfl, rfl, rfl, rfl, rfl, rfl⟩)

/-- Claim C3: Create succeeds iff the primary-store insert succeeds; on
insert failure neither the enqueue nor the publish is attempted; on
insert success the call succeeds whatever the enqueue and publish
outcomes are. -/
theorem C3_create_requires_ps (psOk enqOk pubOk hb : Bool)
    (r : CreateAuditLogRequest) :
    ((serviceCreate psOk enqOk pubOk hb r).2 = Except.ok () ↔ psOk = true) ∧
    (psOk = false →
      (∀ l ok, CreateEffect.sendIndexMessage l ok ∉ (serviceCreate psOk enqOk pubOk hb r).1) ∧
      (∀ t ok, CreateEffect.broadcastLog t ok ∉ (serviceCreate psOk enqOk pubOk hb r).1)) ∧
    (psOk = true → (serviceCreate psOk enqOk pubOk hb r).2 = Except.ok ()) := by
  cases psOk <;> cases hb <;> simp [serviceCreate]

/-- Claim C3 witness: with a failed insert the call errors and attempts
no enqueue; with a successful insert and failing enqueue and publish
the call still succeeds. -/
theorem C3_create_requires_ps_witness :
    (CreateEffect.sendIndexMessage (toAuditLog reqNoSeverity) true
        ∉ (serviceCreate false true true true reqNoSeverity).1) ∧
    (serviceCreate true false false true reqNoSeverity).2 = Except.ok () :=
  ⟨((C3_create_requires_ps false true true true reqNoSeverity).2.1 rfl).1
      (toAuditLog reqNoSeverity) true,
   (C3_create_requires_ps true false false true reqNoSeverity).2.2 rfl⟩

/-- Claim C10: BulkCreate overwrites every row's tenant_id with the
tenant from the caller's token context, regardless of the tenant_id
values in the request body, and fails when the context carries no
tenant. -/
theorem C10_bulk_create_tenant_rebind (t : String) (uuidGen : Nat → String)
    (logs rows : List AuditLog) :
    (repoBulkCreate (some t) uuidGen logs = .ok rows →
      ∀ l ∈ rows, l.tenantID = t) ∧
    repoBulkCreate none uuidGen logs = .error GormErr.noTenantInContext := by
  constructor
  · intro h l hl
    have hrows : rows = bulkAssign t uuidGen logs := by
      simpa [repoBulkCreate] using h.symm
    subst hrows
    unfold bulkAssign at hl
    obtain ⟨p, _, hp⟩ := List.mem_map.mp hl
    rw [← hp]
  · rfl

/-- Claim C10 witness: a bulk insert under token tenant `T` of a row
claiming tenant `evil` stores the row with tenant `T`. -/
theorem C10_bulk_create_tenant_rebind_witness :
    ({ id := "u0", tenantID := "T" } : AuditLog).tenantID = "T" ∧
    repoBulkCreate none (fun _ => "u0") [] = .error GormErr.noTenantInContext :=
  ⟨(C10_bulk_create_tenant_rebind "T" (fun _ => "u0")
      [{ tenantID := "evil" }] _).1 rfl
      { id := "u0", tenantID := "T" } (by decide),
   (C10_bulk_create_tenant_rebind "T" (fun _ => "u0") []
      (bulkAssign "T" (fun _ => "u0") [])).2⟩

theorem deliver_mem_handlePubSubMessage {clients : List WSClient} {t : String}
    {c : WSClient} (h : HubAction.deliver c ∈ handlePubSubMessage clients t) :
    c.tenantID = t := by
  induction clients with
  | nil => simp [handlePubSubMessage] at h
  | cons x xs ih =>
    have hstep : handlePubSubMessage (x :: xs) t
        = (if x.tenantID == t then
            (if x.bufferFree then HubAction.deliver x else HubAction.dropClient x)
              :: handlePubSubMessage xs t
           else handlePubSubMessage xs t) := rfl
    rw [hstep] at h
    by_cases hx : x.tenantID == t
    · rw [if_pos hx] at h
      rcases List.mem_cons.mp h with h1 | h2
      · by_cases hb : x.bufferFree
        · rw [if_pos hb] at h1
          cases h1
          exact beq_iff_eq.mp hx
        · rw [if_neg hb] at h1
          cases h1
      · exact ih h2
    · rw [if_neg hx] at h
      exact ih h

theorem getFilterFromQuery_tenant {t : String} {q f : AuditLogFilter}
    (h : getFilterFromQuery t q = .ok f) : f.tenantID = t := by
  unfold getFilterFromQuery at h
  split at h
  · cases h
  · split at h
    · cases h
    · cases h
    · split at h
      · cases h
      · cases h
        rfl

theorem mem_siSearch_tenant {si : List SIEntry} {t : String}
    {f : AuditLogFilter} (hsi : ∀ ent ∈ si, ent.indexTenant = ent.log.tenantID)
    {a : AuditLog} (ha : a ∈ siSearch si t f) : a.tenantID = t := by
  unfold siSearch siPaginate at ha
  have ha2 : a ∈ sortDesc ((si.filter (fun ent =>
      ent.indexTenant == t && matchesSearchQuery f ent.log)).map (·.log)) := by
    split at ha
    · exact List.mem_of_mem_drop (List.mem_of_mem_take ha)
    · exact ha
  obtain ⟨ent, hent, hlog⟩ := List.mem_map.mp (mem_sortDesc.mp ha2)
  have hpred := List.of_mem_filter hent
  have hmem := List.mem_of_mem_filter hent
  simp only [Bool.and_eq_true, beq_iff_eq] at hpred
  rw [← hlog, ← hsi ent hmem]
  exact hpred.1

/-- Claim C1: tenant isolation.  GetByID returns only a record of the
token tenant; List (both backends, under the handler's filter binding
and the index-per-tenant invariant) returns only records of the token
tenant; the stats queries of both strategies select only rows of the
token tenant; and the hub delivers a pub/sub message only to clients
whose tenant equals the message's tenant. -/
theorem C1_tenant_isolation (tenant qid : String) (db : List AuditLog)
    (si : List SIEntry) (q f : AuditLogFilter) (s e : Nat)
    (clients : List WSClient) (c : WSClient) :
    (∀ x, repoGetByID (some tenant) db qid = .ok x → x.tenantID = tenant) ∧
    (getFilterFromQuery tenant q = .ok f →
      (∀ ent ∈ si, ent.indexTenant = ent.log.tenantID) →
      ∀ backend r, serviceList si db tenant f = (backend, .ok r) →
        ∀ x ∈ r, x.tenantID = tenant) ∧
    (∀ row ∈ hourlyRowsInRange db tenant s e, row.1.tenantID = tenant) ∧
    (∀ x ∈ baseStatsEvents db tenant s e, x.tenantID = tenant) ∧
    (HubAction.deliver c ∈ handlePubSubMessage clients tenant →
      c.tenantID = tenant) := by
  refine ⟨?_, ?_, ?_, ?_, ?_⟩
  · intro x hx
    cases hfind : db.find? (fun l => l.tenantID == tenant && l.id == qid) with
    | none => simp [repoGetByID, hfind] at hx
    | some y =>
      simp only [repoGetByID, hfind, Except.ok.injEq] at hx
      subst hx
      have := List.find?_some hfind
      simp only [Bool.and_eq_true, beq_iff_eq] at this
      exact this.1
  · intro hq hsi backend r hlist x hx
    have hft : f.tenantID = tenant := getFilterFromQuery_tenant hq
    simp only [serviceList] at hlist
    split at hlist
    · have h2 : Except.ok (siSearch si tenant (normalizeFilter f)) = Except.ok r :=
        congrArg Prod.snd hlist
      have hr : r = siSearch si tenant (normalizeFilter f) := by
        cases h2; rfl
      subst hr
      exact mem_siSearch_tenant hsi hx
    · have hres : repoList db (normalizeFilter f) = .ok r := congrArg Prod.snd hlist
      have := matchesListFilter_tenant (repoList_ok_matches hres hx)
      rw [this]
      exact hft
  · intro row hrow
    have := List.of_mem_filter hrow
    simp only [Bool.and_eq_true, beq_iff_eq, decide_eq_true_eq] at this
    exact this.1.1
  · intro x hx
    have := List.of_mem_filter hx
    simp only [Bool.and_eq_true, beq_iff_eq, decide_eq_true_eq] at this
    exact this.1.1
  · exact deliver_mem_handlePubSubMessage

/-- Claim C1 witness: a concrete GetByID result and a concrete hub
delivery both carry the token tenant. -/
theorem C1_tenant_isolation_witness :
    logA.tenantID = "T" ∧ (WSClient.mk 0 "T" true).tenantID = "T" := by
  have h := C1_tenant_isolation "T" "a" [logA] [] {} {} 0 0
    [WSClient.mk 0 "T" true] (WSClient.mk 0 "T" true)
  exact ⟨h.1 logA (by rfl), h.2.2.2.2 (by decide)⟩

theorem applyOffset_zero (ls : List AuditLog) : applyOffset 0 ls = ls := rfl

theorem applyLimit_zero (ls : List AuditLog) : applyLimit 0 ls = ls := rfl

theorem mem_archiveRead {db logs : List AuditLog} {t : String} {d : Nat}
    (h : repoList db { tenantID := t, endTime := some d } = .ok logs)
    {l : AuditLog} (hmem : l ∈ db) (hl : l.tenantID = t) (hts : l.timestamp ≤ d) :
    l ∈ logs := by
  unfold repoList at h
  split at h
  · cases h
  · cases h
    rw [applyLimit_zero, applyOffset_zero, mem_sortDesc]
    refine List.mem_filter.mpr ⟨hmem, ?_⟩
    simp [matchesListFilter, hl, hts]

theorem processArchive_putObject {db : List AuditLog} {s3ok cleanupOk : Bool}
    {msg : QueueMessage} {effs : List WorkerEffect} {ok : Bool} {key : String}
    {obj : ArchiveObject}
    (hproc : processArchiveMessage db s3ok cleanupOk msg = (effs, ok))
    (hput : WorkerEffect.putObject key obj ∈ effs) :
    repoList db { tenantID := msg.tenantID, endTime := some msg.beforeDate }
      = .ok obj.logs
    ∧ obj.tenantID = msg.tenantID ∧ obj.beforeDate = msg.beforeDate
    ∧ s3ok = true := by
  unfold processArchiveMessage at hproc
  cases hrl : repoList db { tenantID := msg.tenantID, endTime := some msg.beforeDate } with
  | error e =>
    simp only [hrl] at hproc
    cases hproc
    cases hput
  | ok logs =>
    simp only [hrl] at hproc
    by_cases hemp : logs.isEmpty
    · rw [if_pos hemp] at hproc
      cases cleanupOk <;> cases hproc <;> simp at hput
    · rw [if_neg hemp] at hproc
      cases s3ok
      · simp only [Bool.false_eq_true, if_false] at hproc
        cases hproc
        cases hput
      · simp only [if_true] at hproc
        cases cleanupOk
        · simp only [Bool.false_eq_true, if_false] at hproc
          cases hproc
          have h1 := List.mem_singleton.mp hput
          injection h1 with hk ho
          subst ho
          exact ⟨rfl, rfl, rfl, rfl⟩
        · simp only [if_true] at hproc
          cases hproc
          rcases List.mem_cons.mp hput with h1 | h1
          · injection h1 with hk ho
            subst ho
            exact ⟨rfl, rfl, rfl, rfl⟩
          · have h2 := List.mem_singleton.mp h1
            simp at h2

/-- Claim C2: every event the cleanup worker would delete for
`(tenant, before_date)` is contained in the logs written into the
archive object for the same task on the same (stable) table, and the
object names that task: the archive selection `timestamp ≤ before_date`
is a superset of the deletion set `timestamp < before_date`. -/
theorem C2_archive_covers_delete (db : List AuditLog) (s3ok cleanupOk : Bool)
    (msg : QueueMessage) (effs : List WorkerEffect) (ok : Bool) (key : String)
    (obj : ArchiveObject) :
    processArchiveMessage db s3ok cleanupOk msg = (effs, ok) →
    WorkerEffect.putObject key obj ∈ effs →
    obj.tenantID = msg.tenantID ∧ obj.beforeDate = msg.beforeDate ∧
    ∀ l ∈ deleteBeforeDateSel db msg.tenantID msg.beforeDate, l ∈ obj.logs := by
  intro hproc hput
  obtain ⟨hread, ht, hd, _⟩ := processArchive_putObject hproc hput
  refine ⟨ht, hd, ?_⟩
  intro l hl
  have hmem := List.mem_of_mem_filter hl
  have hpred := List.of_mem_filter hl
  simp only [Bool.and_eq_true, beq_iff_eq, decide_eq_true_eq] at hpred
  exact mem_archiveRead hread hmem hpred.1 (Nat.le_of_lt hpred.2)

/-- Claim C2 witness: a concrete event deleted by cleanup for
`(T, 10)` occurs in the logs of the object archived for `(T, 10)`. -/
theorem C2_archive_covers_delete_witness : logOld ∈ [logOld] := by
  have h := C2_archive_covers_delete [logOld] true true msgArchive
    [WorkerEffect.putObject (s3Key "T" 10) ⟨"T", 10, 1, [logOld]⟩,
     WorkerEffect.sendCleanup "T" 10] true
    (s3Key "T" 10) ⟨"T", 10, 1, [logOld]⟩ (by rfl) (by simp)
  exact h.2.2 logOld (by decide)

/-- Claim C7: for an ARCHIVE message with a non-empty matching set, a
cleanup message is enqueued only after the object write succeeded (the
successful effect list is exactly object-write followed by
cleanup-enqueue); when the object write fails nothing is enqueued and
the message is not deleted; and the message is deleted only when
processing succeeded. -/
theorem C7_cleanup_only_after_archive (db : List AuditLog) (s3ok cleanupOk : Bool)
    (msg : QueueMessage) (logs : List AuditLog) :
    msg.type = MessageType.archive →
    repoList db { tenantID := msg.tenantID, endTime := some msg.beforeDate }
      = .ok logs →
    logs ≠ [] →
    ((WorkerEffect.sendCleanup msg.tenantID msg.beforeDate
        ∈ (processArchiveMessage db s3ok cleanupOk msg).1 →
      s3ok = true ∧
      (processArchiveMessage db s3ok cleanupOk msg).1
        = [WorkerEffect.putObject (s3Key msg.tenantID msg.beforeDate)
             ⟨msg.tenantID, msg.beforeDate, logs.length, logs⟩,
           WorkerEffect.sendCleanup msg.tenantID msg.beforeDate]) ∧
    (s3ok = false →
      (processArchiveMessage db s3ok cleanupOk msg).1 = [] ∧
      archiveWorkerStep db s3ok cleanupOk msg = []) ∧
    (WorkerEffect.deleteMessage ∈ archiveWorkerStep db s3ok cleanupOk msg →
      (processArchiveMessage db s3ok cleanupOk msg).2 = true)) := by
  intro htype hrl hne
  have hemp : logs.isEmpty = false := by
    cases logs with
    | nil => exact absurd rfl hne
    | cons a as => rfl
  cases s3ok <;> cases cleanupOk <;>
    simp [processArchiveMessage, archiveWorkerStep, hrl, hemp, htype]

/-- Claim C7 witness: on a concrete non-empty task with a successful
object write, the effect sequence is object-write then cleanup-enqueue
then ack. -/
theorem C7_cleanup_only_after_archive_witness :
    (processArchiveMessage [logOld] true true msgArchive).1
      = [WorkerEffect.putObject (s3Key "T" 10) ⟨"T", 10, 1, [logOld]⟩,
         WorkerEffect.sendCleanup "T" 10] := by
  have h := C7_cleanup_only_after_archive [logOld] true true msgArchive [logOld]
    rfl (by rfl) (by decide)
  exact (h.1 (by decide)).2

/-- Claim C4 (code bug): on a two-event table whose events share one
hourly rollup group, the ≤ 24 h path (chosen for a 24 h range) reports
total_logs = 1 — the number of rollup rows, because the total query is
COUNT(*) over audit_logs_hourly_stats instead of SUM(count) — while the
base-table strategy reports total_logs = 2 on the same range, and the
> 24 h path (a 1-second-wider range over the same events) reports 2.
The per-category counts of the two strategies agree on this input; only
the totals diverge. -/
theorem C4_stats_total_divergence :
    repoGetStats dbHour none
      { tenantID := "T", startTime := some 0, endTime := some 86400 }
      = .ok (hourlyStrategy dbHour "T" 0 86400) ∧
    (hourlyStrategy dbHour "T" 0 86400).totalLogs = 1 ∧
    (baseStrategy dbHour "T" 0 86400).totalLogs = 2 ∧
    repoGetStats dbHour none
      { tenantID := "T", startTime := some 0, endTime := some 86401 }
      = .ok (baseStrategy dbHour "T" 0 86401) ∧
    (baseStrategy dbHour "T" 0 86401).totalLogs = 2 ∧
    (hourlyStrategy dbHour "T" 0 86400).actionCounts
      = (baseStrategy dbHour "T" 0 86400).actionCounts ∧
    (hourlyStrategy dbHour "T" 0 86400).severityCounts
      = (baseStrategy dbHour "T" 0 86400).severityCounts := by
  refine ⟨rfl, rfl, rfl, rfl, rfl, rfl, rfl⟩

/-- Claim C5 (code bug): for an id absent from the caller's tenant —
whether the id exists nowhere or belongs to another tenant — GetLog
responds 500, because the repository surfaces gorm record-not-found as
an error and the handler's `err != nil` branch fires before its 404
branch, which is unreachable. -/
theorem C5_getlog_missing_id_is_500 :
    handlerGetLog (some "T") [] "missing" = 500 ∧
    handlerGetLog (some "T") [{ id := "a", tenantID := "U" }] "a" = 500 ∧
    handlerGetLog (some "T") [logA] "a" = 200 := by
  refine ⟨rfl, rfl, rfl⟩

/-- Claim C9 counterexample: a create request with every field set
except severity is rejected with 400 and nothing is inserted — the
event is not accepted and stored with severity INFO as the claim
states. -/
theorem C9_absent_severity_rejected :
    handlerCreateLog true true true true reqNoSeverity = (400, []) ∧
    (400 : Nat) ≠ 201 := by
  exact ⟨rfl, by decide⟩

/-- Claim C9 amended: a create request whose severity field is absent
is rejected with 400 by the required-field binding and no insert is
attempted; the INFO default exists only at the storage layer, where an
insert carrying an empty severity is stored with severity INFO by the
column default. -/
theorem C9_severity_default_amended (psOk enqOk pubOk hb : Bool)
    (r : CreateAuditLogRequest) (l : AuditLog) :
    (r.severity = "" → handlerCreateLog psOk enqOk pubOk hb r = (400, [])) ∧
    (l.severity = "" → (gormStoredLog l).severity = "INFO") ∧
    (l.severity ≠ "" → (gormStoredLog l).severity = l.severity) := by
  refine ⟨?_, ?_, ?_⟩
  · intro hs
    have hbind : bindCreateAuditLogRequest r = false := by
      simp [bindCreateAuditLogRequest, hs]
    simp [handlerCreateLog, hbind]
  · intro hs
    simp [gormStoredLog, hs]
  · intro hs
    simp [gormStoredLog, hs]

/-- Claim C9 amended witness: the concrete severity-less request is
rejected with 400, and a stored row with empty severity receives
INFO. -/
theorem C9_severity_default_amended_witness :
    handlerCreateLog true true true true reqNoSeverity = (400, []) ∧
    (gormStoredLog { id := "y", severity := "ERROR" }).severity = "ERROR" ∧
    (gormStoredLog { id := "x" }).severity = "INFO" :=
  ⟨(C9_severity_default_amended true true true true reqNoSeverity
      { id := "x" }).1 rfl,
   (C9_severity_default_amended true true true true reqNoSeverity
      { id := "y", severity := "ERROR" }).2.2 (by decide),
   (C9_severity_default_amended true true true true reqNoSeverity
      { id := "x" }).2.1 rfl⟩

end AuditLogAPI
